import Mathlib

/-!
Verification development for the data-lifecycle compliance engine of the
repository: the PII detector/masker (src/security/pii_masker.py), the logging
PII interceptor (src/utils/logger.py), and the retention cleanup engine with
its audit trail (src/security/data_retention.py, scripts/cleanup_old_data.py).

Python text is modelled as `List Char` / `String`; timestamps as `Int` (the
code stores ISO-8601 strings whose lexicographic order coincides with
chronological order, so only the order matters); confidences as `Nat`
hundredths (0.95 ↦ 95, 0.7 ↦ 70); SQLite tables as lists of rows.
-/

set_option maxRecDepth 100000

namespace Mvp

/-! ## Small list utilities (used by the regex engine and the models) -/

/-- Keep the first occurrence of each element, preserving order. -/
def dedupGo : List Nat → List Nat → List Nat
  | [], _ => []
  | x :: xs, seen => if seen.contains x then dedupGo xs seen else x :: dedupGo xs (x :: seen)

def dedupNat (l : List Nat) : List Nat := dedupGo l []

def concatMap (f : α → List β) : List α → List β
  | [] => []
  | x :: xs => f x ++ concatMap f xs

theorem concatMap_nil_of_forall (f : α → List β) (l : List α)
    (h : ∀ x, f x = []) : concatMap f l = [] := by
  induction l with
  | nil => rfl
  | cons x xs ih => simp only [concatMap, h x, ih, List.nil_append]

theorem mem_concatMap {f : α → List β} {l : List α} {b : β} :
    b ∈ concatMap f l ↔ ∃ a ∈ l, b ∈ f a := by
  induction l with
  | nil => simp [concatMap]
  | cons x xs ih =>
    simp only [concatMap, List.mem_append, ih, List.mem_cons]
    constructor
    · rintro (hb | ⟨a, ha, hb⟩)
      · exact ⟨x, Or.inl rfl, hb⟩
      · exact ⟨a, Or.inr ha, hb⟩
    · rintro ⟨a, (rfl | ha), hb⟩
      · exact Or.inl hb
      · exact Or.inr ⟨a, ha, hb⟩

/-! ## A backtracking regex engine with Python `re` semantics

`ends t fuel re i` returns, in Python backtracking priority order (greedy
quantifiers, alternation tried left to right), the positions at which `re`
can finish matching when started at position `i` of `t`.  Duplicated end
positions are pruned keeping the first (highest-priority) occurrence, which
preserves the first-success semantics.  `fuel` only bounds the recursion
depth; `reEnds` supplies a fuel that is provably sufficient (every `star`
iteration must consume at least one character, as CPython's engine
effectively enforces by stopping on an empty repetition). -/

/-- A regex character class, transcribed as data from the pattern text.
`digit` stands for `\d`, `space` for `\s` (ASCII scope). -/
structure Ccls where
  ranges : List (Char × Char) := []
  chars : List Char := []
  digit : Bool := false
  space : Bool := false
  negated : Bool := false
deriving DecidableEq

def isSpacePy (c : Char) : Bool :=
  c = ' ' || c = '\t' || c = '\n' || c = '\r' || c = '\x0b' || c = '\x0c'

def Ccls.base (k : Ccls) (c : Char) : Bool :=
  k.ranges.any (fun r => decide (r.1.toNat ≤ c.toNat) && decide (c.toNat ≤ r.2.toNat))
  || k.chars.contains c
  || (k.digit && c.isDigit)
  || (k.space && isSpacePy c)

def Ccls.matches (k : Ccls) (c : Char) : Bool :=
  if k.negated then !(k.base c) else k.base c

inductive RE where
  | eps
  | lit (c : Char)
  | cls (k : Ccls)
  | cat (r1 r2 : RE)
  | alt (r1 r2 : RE)
  | star (r : RE)
  | bword
  | bol
  | nla (r : RE)
deriving DecidableEq

def isWordChar (c : Char) : Bool := c.isAlphanum || c = '_'

def wordAt (t : List Char) (i : Nat) : Bool :=
  match t[i]? with
  | some c => isWordChar c
  | none => false

/-- Models `\b`: a word character on exactly one side of position `i`. -/
def wordBoundaryAt (t : List Char) (i : Nat) : Bool :=
  match i with
  | 0 => wordAt t 0
  | j + 1 => wordAt t (j + 1) != wordAt t j

def ends (t : List Char) : Nat → RE → Nat → List Nat
  | 0, _, _ => []
  | fuel + 1, re, i =>
    match re with
    | .eps => [i]
    | .lit c =>
      match t[i]? with
      | some d => if d = c then [i + 1] else []
      | none => []
    | .cls k =>
      match t[i]? with
      | some d => if k.matches d then [i + 1] else []
      | none => []
    | .cat r1 r2 => dedupNat (concatMap (fun j => ends t fuel r2 j) (ends t fuel r1 i))
    | .alt r1 r2 => dedupNat (ends t fuel r1 i ++ ends t fuel r2 i)
    | .star r =>
      dedupNat
        ((concatMap (fun j => if i < j then ends t fuel (.star r) j else [])
            (ends t fuel r i)) ++ [i])
    | .bword => if wordBoundaryAt t i then [i] else []
    | .bol => if i = 0 then [i] else []
    | .nla r => if (ends t fuel r i).isEmpty then [i] else []

def sizeRE : RE → Nat
  | .eps => 1
  | .lit _ => 1
  | .cls _ => 1
  | .cat r1 r2 => sizeRE r1 + sizeRE r2 + 1
  | .alt r1 r2 => sizeRE r1 + sizeRE r2 + 1
  | .star r => sizeRE r + 1
  | .bword => 1
  | .bol => 1
  | .nla r => sizeRE r + 1

/-- Match ends at position `i`, with fuel sufficient for the whole search. -/
def reEnds (t : List Char) (re : RE) (i : Nat) : List Nat :=
  ends t ((sizeRE re + 1) * (t.length + 2)) re i

/-- Non-overlapping scan, like `re.finditer`: leftmost match start, the
engine's preferred end; continue scanning from the match end. -/
def finditerGo (t : List Char) (re : RE) : Nat → Nat → List (Nat × Nat)
  | 0, _ => []
  | fuel + 1, pos =>
    if pos ≤ t.length then
      match (reEnds t re pos).head? with
      | some j => (pos, j) :: finditerGo t re fuel (if pos < j then j else pos + 1)
      | none => finditerGo t re fuel (pos + 1)
    else []

def finditer (t : List Char) (re : RE) : List (Nat × Nat) :=
  finditerGo t re (t.length + 1) 0

/-! ### Pattern constructors (sugar mirroring the regex notation) -/

def rePlus (r : RE) : RE := .cat r (.star r)

def reOpt (r : RE) : RE := .alt r .eps

def repn (r : RE) : Nat → RE
  | 0 => .eps
  | n + 1 => .cat r (repn r n)

/-- Greedy `r{0,k}` (more repetitions preferred). -/
def uptoN (r : RE) : Nat → RE
  | 0 => .eps
  | k + 1 => .alt (.cat r (uptoN r k)) .eps

/-- Greedy `r{m,n}`. -/
def between (r : RE) (m n : Nat) : RE := .cat (repn r m) (uptoN r (n - m))

/-- Models `r{m,}`. -/
def atLeast (r : RE) (m : Nat) : RE := .cat (repn r m) (.star r)

def litStr (s : String) : RE := (s.toList.map RE.lit).foldr RE.cat .eps

/-- Alternation of a list, tried left to right (Python priority). -/
def altList : List RE → RE
  | [] => .nla .eps
  | [r] => r
  | r :: rs => .alt r (altList rs)

def catList : List RE → RE
  | [] => .eps
  | [r] => r
  | r :: rs => .cat r (catList rs)

/-! ## The PII detection patterns (PiiMasker.PATTERNS, transcribed) -/

def digitCls : Ccls := { digit := true }

/-- The class `[-.\s]`. -/
def sepCls : Ccls := { chars := ['-', '.'], space := true }

def spaceCls : Ccls := { space := true }

def emailLocalCls : Ccls :=
  { ranges := [('A', 'Z'), ('a', 'z'), ('0', '9')], chars := ['.', '_', '%', '+', '-'] }

def emailDomainCls : Ccls :=
  { ranges := [('A', 'Z'), ('a', 'z'), ('0', '9')], chars := ['.', '-'] }

/-- The class `[A-Z|a-z]` (the source pattern really contains the bar). -/
def emailTldCls : Ccls := { ranges := [('A', 'Z'), ('a', 'z')], chars := ['|'] }

/-- Models `\b[A-Za-z0-9._%+-]+@[A-Za-z0-9.-]+\.[A-Z|a-z]{2,}\b` -/
def emailPattern : RE :=
  catList [.bword, rePlus (.cls emailLocalCls), .lit '@', rePlus (.cls emailDomainCls),
    .lit '.', atLeast (.cls emailTldCls) 2, .bword]

/-- First phone alternative: `(?:\+?56[-.\s]?)?(?:9|2)?[-.\s]?\d{4}[-.\s]?\d{4}`. -/
def phoneAlt1 : RE :=
  catList [reOpt (catList [reOpt (.lit '+'), litStr "56", reOpt (.cls sepCls)]),
    reOpt (.alt (.lit '9') (.lit '2')), reOpt (.cls sepCls),
    repn (.cls digitCls) 4, reOpt (.cls sepCls), repn (.cls digitCls) 4]

/-- The country-code alternation of the second phone alternative, in source order. -/
def phoneCodes : List String :=
  ["1", "44", "34", "39", "33", "49", "31", "46", "41", "43", "45", "47", "48", "32",
   "61", "81", "82", "86", "84", "90", "92", "93", "94", "95", "98",
   "212", "213", "216", "218", "220", "221", "222", "223", "224", "225", "226", "227",
   "228", "229", "230", "231", "232", "233", "234", "235", "236", "237", "238", "239",
   "240", "241", "242", "243", "244", "245", "246", "247", "248", "249", "250", "251",
   "252", "253", "254", "255", "256", "257", "258", "259", "260", "261", "262", "263",
   "264", "265", "266", "267", "268", "269", "290", "291", "297", "298", "299",
   "350", "351", "352", "353", "354", "355", "356", "357", "358", "359",
   "370", "371", "372", "373", "374", "375", "376", "377", "378",
   "380", "381", "382", "383", "385", "386", "387", "389",
   "420", "421", "423",
   "500", "501", "502", "503", "504", "505", "506", "507", "508", "509",
   "590", "591", "592", "593", "594", "595", "596", "597", "598", "599",
   "670", "672", "673", "674", "675", "676", "677", "678", "679",
   "680", "681", "682", "683", "684", "685", "686", "687", "688", "689",
   "690", "691", "692",
   "850", "852", "853", "855", "856", "880", "886",
   "960", "961", "962", "963", "964", "965", "966", "967", "968",
   "970", "971", "972", "973", "974", "975", "976", "977",
   "992", "993", "994", "995", "996", "998"]

/-- Second phone alternative: `\+?(?:1|44|...|998)\s?\d+(?:[-.\s]?\d+)*`. -/
def phoneAlt2 : RE :=
  catList [reOpt (.lit '+'), altList (phoneCodes.map litStr), reOpt (.cls spaceCls),
    rePlus (.cls digitCls), .star (.cat (reOpt (.cls sepCls)) (rePlus (.cls digitCls)))]

def phonePattern : RE := .alt phoneAlt1 phoneAlt2

/-- Models `\b(?:\d{1,2}\.)?\d{1,3}\.\d{3}-[\dkK]\b` -/
def rutPattern : RE :=
  catList [.bword, reOpt (.cat (between (.cls digitCls) 1 2) (.lit '.')),
    between (.cls digitCls) 1 3, .lit '.', repn (.cls digitCls) 3, .lit '-',
    .cls { digit := true, chars := ['k', 'K'] }, .bword]

/-- Models `\b(?:\d{4}[-\s]?){3}\d{4}\b` -/
def creditCardPattern : RE :=
  catList [.bword,
    repn (.cat (repn (.cls digitCls) 4) (reOpt (.cls { chars := ['-'], space := true }))) 3,
    repn (.cls digitCls) 4, .bword]

/-- Models `(?:https?|ftp)://[^\s:]+:[^\s@]+@[^\s/]+` -/
def urlCredentialPattern : RE :=
  catList [.alt (.cat (litStr "http") (reOpt (.lit 's'))) (litStr "ftp"), litStr "://",
    rePlus (.cls { chars := [':'], space := true, negated := true }), .lit ':',
    rePlus (.cls { chars := ['@'], space := true, negated := true }), .lit '@',
    rePlus (.cls { chars := ['/'], space := true, negated := true })]

/-- One IPv4 octet: `(?:25[0-5]|2[0-4][0-9]|[01]?[0-9][0-9]?)`. -/
def ipOctet : RE :=
  altList [.cat (litStr "25") (.cls { ranges := [('0', '5')] }),
    catList [.lit '2', .cls { ranges := [('0', '4')] }, .cls { ranges := [('0', '9')] }],
    catList [reOpt (.cls { chars := ['0', '1'] }), .cls { ranges := [('0', '9')] },
      reOpt (.cls { ranges := [('0', '9')] })]]

/-- Models `\b(?:(?:25[0-5]|2[0-4][0-9]|[01]?[0-9][0-9]?)\.){3}(?:...)\b` -/
def ipAddressPattern : RE :=
  catList [.bword, repn (.cat ipOctet (.lit '.')) 3, ipOctet, .bword]

/-- Models `\b(?!000|666|9\d{2})\d{3}-(?!00)\d{2}-(?!0{4})\d{4}\b` -/
def ssnPattern : RE :=
  catList [.bword,
    .nla (altList [litStr "000", litStr "666", .cat (.lit '9') (repn (.cls digitCls) 2)]),
    repn (.cls digitCls) 3, .lit '-',
    .nla (litStr "00"), repn (.cls digitCls) 2, .lit '-',
    .nla (repn (.lit '0') 4), repn (.cls digitCls) 4, .bword]

/-- Models `\b[A-Z]{1,2}\d{6,9}\b` -/
def passportPattern : RE :=
  catList [.bword, between (.cls { ranges := [('A', 'Z')] }) 1 2,
    between (.cls digitCls) 6 9, .bword]

/-! ### The `_detect_names` heuristic pattern
`(?:^|[.!?\n]\s+|,\s+)([A-Z][a-záéíóúñ]+(?:\s+[A-Z][a-záéíóúñ]+)?)` split into the
part before the capture group and the group body, so the group span can be
reported like `match.start(1)`/`match.end(1)`. -/

def nameBeforeGroup : RE :=
  altList [.bol, .cat (.cls { chars := ['.', '!', '?', '\n'] }) (rePlus (.cls spaceCls)),
    .cat (.lit ',') (rePlus (.cls spaceCls))]

def nameUpperCls : Ccls := { ranges := [('A', 'Z')] }

def nameLowerCls : Ccls := { ranges := [('a', 'z')], chars := ['á', 'é', 'í', 'ó', 'ú', 'ñ'] }

def nameGroupBody : RE :=
  catList [.cls nameUpperCls, rePlus (.cls nameLowerCls),
    reOpt (catList [rePlus (.cls spaceCls), .cls nameUpperCls, rePlus (.cls nameLowerCls)])]

/-- The first way the name regex matches at `pos`: the group start (end of the
part before the group, alternatives in priority order) and the match end. -/
def nameMatchAt (t : List Char) (pos : Nat) : Option (Nat × Nat) :=
  ((reEnds t nameBeforeGroup pos).filterMap
      (fun p => ((reEnds t nameGroupBody p).head?).map (fun e => (p, e)))).head?

/-- Models `finditer` for the name regex, yielding `(group start, group end)` pairs
(the capture group extends to the end of the whole match). -/
def nameFinditerGo (t : List Char) : Nat → Nat → List (Nat × Nat)
  | 0, _ => []
  | fuel + 1, pos =>
    if pos ≤ t.length then
      match nameMatchAt t pos with
      | some (p, e) => (p, e) :: nameFinditerGo t fuel (if pos < e then e else pos + 1)
      | none => nameFinditerGo t fuel (pos + 1)
    else []

def nameFinditer (t : List Char) : List (Nat × Nat) :=
  nameFinditerGo t (t.length + 1) 0

/-! ## SHA-256 (for `PiiMasker._hash_replacement`), over `Nat` mod 2^32 -/

def M32 : Nat := 4294967296

def rotr32 (x n : Nat) : Nat := ((x >>> n) ||| (x <<< (32 - n))) % M32

def sha256K : List Nat :=
  [1116352408, 1899447441, 3049323471, 3921009573,
   961987163, 1508970993, 2453635748, 2870763221,
   3624381080, 310598401, 607225278, 1426881987,
   1925078388, 2162078206, 2614888103, 3248222580,
   3835390401, 4022224774, 264347078, 604807628,
   770255983, 1249150122, 1555081692, 1996064986,
   2554220882, 2821834349, 2952996808, 3210313671,
   3336571891, 3584528711, 113926993, 338241895,
   666307205, 773529912, 1294757372, 1396182291,
   1695183700, 1986661051, 2177026350, 2456956037,
   2730485921, 2820302411, 3259730800, 3345764771,
   3516065817, 3600352804, 4094571909, 275423344,
   430227734, 506948616, 659060556, 883997877,
   958139571, 1322822218, 1537002063, 1747873779,
   1955562222, 2024104815, 2227730452, 2361852424,
   2428436474, 2756734187, 3204031479, 3329325298]

def sha256H0 : List Nat :=
  [1779033703, 3144134277, 1013904242, 2773480762,
   1359893119, 2600822924, 528734635, 1541459225]

def padMessage (bytes : List Nat) : List Nat :=
  let len := bytes.length
  let bitLen := len * 8
  let padZeros := (119 - len % 64) % 64
  bytes ++ [128] ++ List.replicate padZeros 0
    ++ (List.range 8).map (fun k => bitLen / 256 ^ (7 - k) % 256)

def toWords32 : List Nat → List Nat
  | b0 :: b1 :: b2 :: b3 :: rest => (((b0 * 256 + b1) * 256 + b2) * 256 + b3) :: toWords32 rest
  | _ => []

def scheduleGo (acc : List Nat) : Nat → List Nat
  | 0 => acc
  | n + 1 =>
    let i := acc.length
    let w15 := (acc[i - 15]?).getD 0
    let w2 := (acc[i - 2]?).getD 0
    let w16 := (acc[i - 16]?).getD 0
    let w7 := (acc[i - 7]?).getD 0
    let s0 := Nat.xor (Nat.xor (rotr32 w15 7) (rotr32 w15 18)) (w15 >>> 3)
    let s1 := Nat.xor (Nat.xor (rotr32 w2 17) (rotr32 w2 19)) (w2 >>> 10)
    scheduleGo (acc ++ [(w16 + s0 + w7 + s1) % M32]) n

def chFn (e f g : Nat) : Nat := Nat.xor (e &&& f) (Nat.xor e (M32 - 1) &&& g)

def majFn (a b c : Nat) : Nat := Nat.xor (Nat.xor (a &&& b) (a &&& c)) (b &&& c)

def bigSigma0 (a : Nat) : Nat := Nat.xor (Nat.xor (rotr32 a 2) (rotr32 a 13)) (rotr32 a 22)

def bigSigma1 (e : Nat) : Nat := Nat.xor (Nat.xor (rotr32 e 6) (rotr32 e 11)) (rotr32 e 25)

def sha256Round (st : List Nat) (kw : Nat × Nat) : List Nat :=
  match st with
  | [a, b, c, d, e, f, g, h] =>
    let temp1 := (h + bigSigma1 e + chFn e f g + kw.1 + kw.2) % M32
    let temp2 := (bigSigma0 a + majFn a b c) % M32
    [(temp1 + temp2) % M32, a, b, c, (d + temp1) % M32, e, f, g]
  | st => st

def sha256Compress (hs chunk : List Nat) : List Nat :=
  let w := scheduleGo chunk 48
  let st := (sha256K.zip w).foldl sha256Round hs
  (hs.zip st).map (fun p => (p.1 + p.2) % M32)

def sha256Chunks (hs : List Nat) : List Nat → List Nat
  | w0 :: w1 :: w2 :: w3 :: w4 :: w5 :: w6 :: w7 :: w8 :: w9 :: w10 :: w11 :: w12 :: w13
      :: w14 :: w15 :: rest =>
    sha256Chunks
      (sha256Compress hs [w0, w1, w2, w3, w4, w5, w6, w7, w8, w9, w10, w11, w12, w13, w14, w15])
      rest
  | _ => hs

def hexDigitChar (n : Nat) : Char := (("0123456789abcdef".toList)[n]?).getD '0'

def toHexWord (n : Nat) : String :=
  String.mk ((List.range 8).map (fun k => hexDigitChar (n / 16 ^ (7 - k) % 16)))

/-- Hex digest of the SHA-256 of the UTF-8 bytes of `s`. -/
def sha256Hex (s : String) : String :=
  let bytes := s.toUTF8.toList.map (fun b => b.toNat)
  String.join ((sha256Chunks sha256H0 (toWords32 (padMessage bytes))).map toHexWord)

/-! ## PiiType, PiiDetection and PiiMasker (src/security/pii_masker.py) -/

inductive PiiType where
  | email
  | phone
  | rut
  | name
  | credit_card
  | url_credential
  | ip_address
  | ssn
  | passport
deriving DecidableEq

/-- The `.value` string of each enum member. -/
def PiiType.value : PiiType → String
  | .email => "email"
  | .phone => "phone"
  | .rut => "rut"
  | .name => "name"
  | .credit_card => "credit_card"
  | .url_credential => "url_credential"
  | .ip_address => "ip_address"
  | .ssn => "ssn"
  | .passport => "passport"

/-- A detected PII element.  `stop` models the `end` offset; `confidence` is
in hundredths (0.95 ↦ 95). -/
structure PiiDetection where
  pii_type : PiiType
  value : String
  start : Nat
  stop : Nat
  confidence : Nat
deriving DecidableEq

/-- The compiled-pattern table, in the insertion order of `PATTERNS`. -/
def PATTERNS : List (PiiType × RE) :=
  [(.email, emailPattern), (.phone, phonePattern), (.rut, rutPattern),
   (.credit_card, creditCardPattern), (.url_credential, urlCredentialPattern),
   (.ip_address, ipAddressPattern), (.ssn, ssnPattern), (.passport, passportPattern)]

/-- Models `PiiMasker.__init__` state (threshold in hundredths, 0.7 ↦ 70). -/
structure PiiMasker where
  name_detector : Bool
  confidence_threshold : Nat
deriving DecidableEq

def substringOf (t : List Char) (a b : Nat) : String :=
  String.mk ((t.drop a).take (b - a))

def upperString (s : String) : String := String.mk (s.toList.map Char.toUpper)

def lowerString (s : String) : String := String.mk (s.toList.map Char.toLower)

/-- The skip set in `_detect_names` (capitalized in the source, compared
against the lowercased word, exactly as written). -/
def commonCapWords : List String :=
  ["The", "A", "An", "And", "Or", "But", "In", "On", "At", "To", "For"]

/-- Models `PiiMasker._detect_names`: heuristic proper-noun matches at confidence
0.6, appended only when that confidence reaches the threshold. -/
def PiiMasker.detect_names (m : PiiMasker) (text : String) : List PiiDetection :=
  let t := text.toList
  concatMap
    (fun (g : Nat × Nat) =>
      let word := substringOf t g.1 g.2
      if !(commonCapWords.contains (lowerString word)) then
        if 60 ≥ m.confidence_threshold then
          [{ pii_type := .name, value := word, start := g.1, stop := g.2, confidence := 60 }]
        else []
      else [])
    (nameFinditer t)

/-- Stable insertion, placing `x` after every element whose start is ≤ its
own: ascending sort by start, equal keys keep arrival order. -/
def insAsc (x : PiiDetection) : List PiiDetection → List PiiDetection
  | [] => [x]
  | y :: ys => if y.start ≤ x.start then y :: insAsc x ys else x :: y :: ys

/-- Models `detections.sort(key=lambda x: x.start)`: stable ascending. -/
def sortByStart (l : List PiiDetection) : List PiiDetection :=
  l.foldl (fun acc x => insAsc x acc) []

def insDesc (x : PiiDetection) : List PiiDetection → List PiiDetection
  | [] => [x]
  | y :: ys => if x.start ≤ y.start then y :: insDesc x ys else x :: y :: ys

/-- Models `sorted(detections, key=lambda x: x.start, reverse=True)`: stable
descending (equal keys keep the order of the input list). -/
def sortByStartDesc (l : List PiiDetection) : List PiiDetection :=
  l.foldl (fun acc x => insDesc x acc) []

/-- Models `PiiMasker.detect`: every pattern scanned independently (regex matches at
confidence 0.95, kept when ≥ threshold), then the optional name heuristic,
then a stable sort by start offset. -/
def PiiMasker.detect (m : PiiMasker) (text : String) : List PiiDetection :=
  let t := text.toList
  let fams :=
    concatMap
      (fun (pp : PiiType × RE) =>
        concatMap
          (fun (sp : Nat × Nat) =>
            if 95 ≥ m.confidence_threshold then
              [{ pii_type := pp.1, value := substringOf t sp.1 sp.2, start := sp.1,
                 stop := sp.2, confidence := 95 }]
            else [])
          (finditer t pp.2))
      PATTERNS
  let dets := fams ++ (if m.name_detector then m.detect_names text else [])
  sortByStart dets

/-- Models `PiiMasker._hash_replacement` (length defaults to 8). -/
def hashReplacement (value : String) : String :=
  "#" ++ (sha256Hex value).take 8

def lastChars (s : String) (n : Nat) : String :=
  String.mk (s.toList.drop (s.length - n))

/-- Models `PiiMasker._partial_mask`, with Python slicing semantics (negative
amounts collapse to the empty prefix, `value[-k:]` of a short string is the
whole string). -/
def partialMask (value : String) (pii_type : PiiType) : String :=
  let n := value.length
  let dflt :=
    if n ≤ 2 then String.mk (List.replicate n '*')
    else
      match value.toList with
      | [] => ""
      | c :: _ => String.mk (c :: List.replicate (n - 2) '*') ++ lastChars value 1
  if pii_type = .email then
    match value.splitOn "@" with
    | [l, d] =>
      match l.toList with
      | [] => dflt
      | c0 :: _ => String.mk (c0 :: List.replicate (l.length - 1) '*') ++ "@" ++ d
    | _ => dflt
  else if pii_type = .credit_card then
    String.mk (List.replicate (n - 4) '*') ++ lastChars value 4
  else if pii_type = .phone then
    let digits := value.toList.filter Char.isDigit
    if digits.length ≥ 4 then
      String.mk (List.replicate (n - 4) '*' ++ digits.drop (digits.length - 4))
    else dflt
  else if pii_type = .rut then
    if value ≠ "" ∧ n ≥ 3 then String.mk (List.replicate (n - 3) '*') ++ lastChars value 3
    else dflt
  else dflt

/-- Models `PiiMasker.mask`: detect once over the original text; if nothing was
detected return `(text, [])`; otherwise apply replacements in descending
start-offset order, splicing at the original offsets. -/
def PiiMasker.mask (m : PiiMasker) (text strategy : String)
    (replacement_char : Char := '*') : String × List PiiDetection :=
  let detections := m.detect text
  if detections.isEmpty then (text, [])
  else
    let ds := sortByStartDesc detections
    let masked :=
      ds.foldl
        (fun (acc : List Char) d =>
          let repl : List Char :=
            if strategy = "hash" then (hashReplacement d.value).toList
            else if strategy = "replace" then List.replicate d.value.length replacement_char
            else if strategy = "redact" then
              ("[REDACTED_" ++ upperString d.pii_type.value ++ "]").toList
            else if strategy = "partial" then (partialMask d.value d.pii_type).toList
            else List.replicate d.value.length replacement_char
          acc.take d.start ++ repl ++ acc.drop d.stop)
        text.toList
    (String.mk masked, detections)

/-- The module-level `_default_masker = PiiMasker()` (name detector on,
threshold 0.7). -/
def defaultMasker : PiiMasker := { name_detector := true, confidence_threshold := 70 }

/-- Module-level `detect_pii`. -/
def detect_pii (text : String) : List PiiDetection := defaultMasker.detect text

/-- Module-level `mask_pii` (strategy defaults to `"redact"`). -/
def mask_pii (text : String) (strategy : String := "redact") : String × List PiiDetection :=
  defaultMasker.mask text strategy

/-! ## The logging PII interceptor (src/utils/logger.py, PiiAnonymizingFilter)

A log record's attribute dictionary is an association list of string-keyed
values; values that are not Python `str` are modelled by `PyVal.other` (the
filter leaves them alone).  `record.args` is `None`, a dict or a tuple.  The
masking call `mask_pii(·, strategy="redact")[0]` is passed in as a function
returning `Except Unit String`, so that the possibility of a masking call
raising is represented; the filter itself contains no handler, exactly like
the source. -/

inductive PyVal where
  | str (s : String)
  | other
deriving DecidableEq

inductive LogArgs where
  | noArgs
  | dictArgs (entries : List (String × PyVal))
  | tupleArgs (entries : List PyVal)
deriving DecidableEq

/-- Models `record.__dict__` (string-keyed attributes, containing `"msg"`) plus
`record.args` (kept apart: it is never a `str`, so the attribute loop skips
it). -/
structure LogRecord where
  attrs : List (String × PyVal)
  args : LogArgs
deriving DecidableEq

def getAttr (k : String) : List (String × PyVal) → Option PyVal
  | [] => none
  | (k0, v) :: rest => if k0 = k then some v else getAttr k rest

def setAttr (k : String) (v : PyVal) : List (String × PyVal) → List (String × PyVal)
  | [] => []
  | (k0, v0) :: rest => if k0 = k then (k0, v) :: rest else (k0, v0) :: setAttr k v rest

/-- The keys the extra-fields loop skips. -/
def skipKeys : List String :=
  ["name", "module", "funcName", "levelname", "filename", "pathname"]

/-- The dict-args loop: each string value masked in place, left to right. -/
def maskDictArgs (maskF : String → Except Unit String) :
    List (String × PyVal) → Except Unit (List (String × PyVal))
  | [] => .ok []
  | (k, .str s) :: rest =>
    match maskF s with
    | .ok msk => (maskDictArgs maskF rest).map (fun r => (k, .str msk) :: r)
    | .error e => .error e
  | (k, v) :: rest => (maskDictArgs maskF rest).map (fun r => (k, v) :: r)

/-- The tuple-args rebuild: string elements masked, others kept. -/
def maskTupleArgs (maskF : String → Except Unit String) :
    List PyVal → Except Unit (List PyVal)
  | [] => .ok []
  | .str s :: rest =>
    match maskF s with
    | .ok msk => (maskTupleArgs maskF rest).map (fun r => .str msk :: r)
    | .error e => .error e
  | v :: rest => (maskTupleArgs maskF rest).map (fun r => v :: r)

/-- The `record.__dict__` loop: every string value whose key is not excluded
is masked in place (this re-masks the already-masked `"msg"` entry, exactly
as the source does). -/
def maskAttrs (maskF : String → Except Unit String) :
    List (String × PyVal) → Except Unit (List (String × PyVal))
  | [] => .ok []
  | (k, .str s) :: rest =>
    if skipKeys.contains k then (maskAttrs maskF rest).map (fun r => (k, .str s) :: r)
    else
      match maskF s with
      | .ok msk => (maskAttrs maskF rest).map (fun r => (k, .str msk) :: r)
      | .error e => .error e
  | (k, v) :: rest => (maskAttrs maskF rest).map (fun r => (k, v) :: r)

/-- Step 1: `if isinstance(record.msg, str): record.msg = mask_pii(...)`. -/
def maskMsg (maskF : String → Except Unit String) (attrs : List (String × PyVal)) :
    Except Unit (List (String × PyVal)) :=
  match getAttr "msg" attrs with
  | some (.str s) => (maskF s).map (fun msk => setAttr "msg" (.str msk) attrs)
  | _ => .ok attrs

/-- Step 2: `if record.args:` — dict or tuple args masked elementwise. -/
def maskArgs (maskF : String → Except Unit String) (args : LogArgs) :
    Except Unit LogArgs :=
  match args with
  | .dictArgs l => if l.isEmpty then .ok args else (maskDictArgs maskF l).map .dictArgs
  | .tupleArgs l => if l.isEmpty then .ok args else (maskTupleArgs maskF l).map .tupleArgs
  | .noArgs => .ok args

/-- Models `PiiAnonymizingFilter.filter`: mask the message if it is a string, then
the args (dict or non-empty tuple), then every non-excluded string attribute;
return `True`.  There is no `try`/`except` anywhere in the body, so a failing
masking call propagates. -/
def piiFilter (maskF : String → Except Unit String) (record : LogRecord) :
    Except Unit (Bool × LogRecord) :=
  maskMsg maskF record.attrs >>= fun attrs1 =>
  maskArgs maskF record.args >>= fun args1 =>
  (maskAttrs maskF attrs1).map (fun attrs2 => (true, ⟨attrs2, args1⟩))

/-- The filter as actually instantiated: the masker is the total
`mask_pii(·, "redact")[0]`. -/
def piiFilterReal (record : LogRecord) : Except Unit (Bool × LogRecord) :=
  piiFilter (fun s => .ok (mask_pii s "redact").1) record

/-! ## Data retention (src/security/data_retention.py)

Timestamps are `Int`s in days (the code stores ISO-8601 strings, compared by
SQLite as text; for that format, string order equals chronological order, so
an ordered integer model is faithful).  A table row carries the value of its
date column and the value of its `deleted_at` column; `DateCol` records which
column name was passed as `date_column` (for `cleanup_deleted_users` it is
`deleted_at` itself).  A possible exception inside the `try` block is made
explicit by a `fault` parameter naming the SQL statement that raises, and the
body returns `Except` with the state at the raise; `cleanup_database` is the
`try`/`except` wrapper, which swallows it. -/

inductive DataType where
  | session
  | analytics
  | activity_log
  | auth_log
  | user_data
  | deleted_user
  | chat_history
  | temp_files
deriving DecidableEq

/-- A retention policy (`RetentionPolicy` dataclass). -/
structure RetentionPolicy where
  data_type : DataType
  retention_days : Int
  soft_delete_before_hard : Bool := true
  soft_delete_days : Int := 7
  archive_before_delete : Bool := false
  archive_path : Option String := none
deriving DecidableEq

/-- Models `RetentionPolicy.retention_until()` relative to the current clock. -/
def retention_until (p : RetentionPolicy) (now : Int) : Int := now - p.retention_days

/-- Models `RetentionPolicy.soft_delete_until()`. -/
def soft_delete_until (p : RetentionPolicy) (now : Int) : Int :=
  now - (p.retention_days + p.soft_delete_days)

/-- One row of a cleaned table: the date-column value and the `deleted_at`
marker column (NULL modelled as `none`). -/
structure Row where
  ts : Int
  deleted_at : Option Int
deriving DecidableEq

/-- Which column name was passed as `date_column`. -/
inductive DateCol where
  | tsCol
  | deletedAtCol
deriving DecidableEq

def rowDate : DateCol → Row → Option Int
  | .tsCol, r => some r.ts
  | .deletedAtCol, r => r.deleted_at

/-- A backing store: whether `db_path.exists()`, whether the table has a
`deleted_at` column, and its rows. -/
structure DB where
  present : Bool
  hasDeletedAtCol : Bool
  rows : List Row
deriving DecidableEq

/-- The SQL predicate `date_column < cutoff [AND deleted_at IS NOT NULL]`
(a NULL date column compares as no match). -/
def sqlPred (c : DateCol) (cutoff : Int) (whereDel : Bool) (r : Row) : Bool :=
  (match rowDate c r with
   | some d => decide (d < cutoff)
   | none => false)
  && (!whereDel || r.deleted_at.isSome)

/-- The statement inside the `try` block at which an exception is raised. -/
inductive CleanStep where
  | softCountStep
  | softUpdateStep
  | hardCountStep
  | hardDeleteStep
deriving DecidableEq

/-- The `UPDATE ... SET deleted_at = now` row transform. -/
def markRow (pred : Row → Bool) (now : Int) (r : Row) : Row :=
  if pred r then { r with deleted_at := some now } else r

/-- The body of the `try` block of `_cleanup_database`: soft phase (count,
then stamp `deleted_at` when the column exists), then hard phase (count, then
delete) — both skipped per the `soft_delete_before_hard` / `soft_delete_only`
flags.  On a fault the current counts and rows are carried in the error. -/
def cleanupBodyE (rows : List Row) (hasCol : Bool) (c : DateCol) (p : RetentionPolicy)
    (now : Int) (whereDel sdo : Bool) (fault : Option CleanStep) :
    Except (Nat × Nat × List Row) (Nat × Nat × List Row) :=
  let doSoft := p.soft_delete_before_hard && !sdo
  if doSoft && fault = some .softCountStep then .error (0, 0, rows)
  else
    let softPred := sqlPred c (retention_until p now) whereDel
    let soft := if doSoft then rows.countP softPred else 0
    let needUpd := doSoft && decide (0 < soft) && hasCol
    if needUpd && fault = some .softUpdateStep then .error (soft, 0, rows)
    else
      let rows1 := if needUpd then rows.map (markRow softPred now) else rows
      if !sdo && fault = some .hardCountStep then .error (soft, 0, rows1)
      else
        let hardPred := sqlPred c (soft_delete_until p now) whereDel
        let hard := if !sdo then rows1.countP hardPred else 0
        if !sdo && decide (0 < hard) && fault = some .hardDeleteStep then
          .error (soft, hard, rows1)
        else
          let rows2 := if !sdo && decide (0 < hard) then rows1.filter (fun r => !hardPred r)
            else rows1
          .ok (soft, hard, rows2)

/-- Result of `_cleanup_database`: the returned counts, the store afterwards,
and whether an exception was caught on the way. -/
structure CleanupOutcome where
  soft_deleted : Nat
  hard_deleted : Nat
  db : DB
  caught : Bool
deriving DecidableEq

/-- Models `DataRetentionManager._cleanup_database`: a missing store returns (0,0)
untouched; otherwise the `try` body runs and any exception is caught and
logged, the counts accumulated so far being returned either way. -/
def cleanup_database (db : DB) (c : DateCol) (p : RetentionPolicy) (now : Int)
    (whereDel sdo : Bool) (fault : Option CleanStep) : CleanupOutcome :=
  if !db.present then ⟨0, 0, db, false⟩
  else
    match cleanupBodyE db.rows db.hasDeletedAtCol c p now whereDel sdo fault with
    | .ok (s, h, rows) => ⟨s, h, { db with rows := rows }, false⟩
    | .error (s, h, rows) => ⟨s, h, { db with rows := rows }, true⟩

/-- Models `DataRetentionManager.DEFAULT_POLICIES`. -/
def DEFAULT_POLICIES : List (DataType × Int) :=
  [(.session, 30), (.analytics, 90), (.activity_log, 180), (.auth_log, 365),
   (.user_data, 2555), (.deleted_user, 30), (.chat_history, 365), (.temp_files, 7)]

/-- Models `set_policy`: replace the whole policy for the data type. -/
def set_policy (policies : List (DataType × RetentionPolicy)) (dt : DataType)
    (retention_days : Int) (soft_delete_before_hard : Bool := true)
    (soft_delete_days : Int := 7) : List (DataType × RetentionPolicy) :=
  (dt, { data_type := dt, retention_days := retention_days,
         soft_delete_before_hard := soft_delete_before_hard,
         soft_delete_days := soft_delete_days }) ::
    policies.filter (fun q => !(q.1 = dt : Bool))

def get_policy (policies : List (DataType × RetentionPolicy)) (dt : DataType) :
    Option RetentionPolicy :=
  (policies.find? (fun q => (q.1 = dt : Bool))).map (fun q => q.2)

/-- Models `_setup_default_policies`: one `set_policy` per default entry. -/
def default_policies : List (DataType × RetentionPolicy) :=
  DEFAULT_POLICIES.foldl (fun acc q => set_policy acc q.1 q.2) []

/-- Models `cleanup_sessions`: no policy means (0,0); else the generic cleanup on
the `sessions` table with date column `created_at`. -/
def cleanup_sessions (policies : List (DataType × RetentionPolicy)) (db : DB) (now : Int)
    (fault : Option CleanStep) : CleanupOutcome :=
  match get_policy policies .session with
  | none => ⟨0, 0, db, false⟩
  | some p => cleanup_database db .tsCol p now false false fault

/-- Models `cleanup_analytics` (table `metrics`, date column `timestamp`). -/
def cleanup_analytics (policies : List (DataType × RetentionPolicy)) (db : DB) (now : Int)
    (fault : Option CleanStep) : CleanupOutcome :=
  match get_policy policies .analytics with
  | none => ⟨0, 0, db, false⟩
  | some p => cleanup_database db .tsCol p now false false fault

/-- Models `cleanup_activity_logs` (table `activity_logs`, date column `timestamp`). -/
def cleanup_activity_logs (policies : List (DataType × RetentionPolicy)) (db : DB) (now : Int)
    (fault : Option CleanStep) : CleanupOutcome :=
  match get_policy policies .activity_log with
  | none => ⟨0, 0, db, false⟩
  | some p => cleanup_database db .tsCol p now false false fault

/-- Models `cleanup_auth_logs` (soft-delete-only mode). -/
def cleanup_auth_logs (policies : List (DataType × RetentionPolicy)) (db : DB) (now : Int)
    (fault : Option CleanStep) : CleanupOutcome :=
  match get_policy policies .auth_log with
  | none => ⟨0, 0, db, false⟩
  | some p => cleanup_database db .tsCol p now false true fault

/-- Models `cleanup_deleted_users`: date column is `deleted_at` itself, with the
extra `deleted_at IS NOT NULL` clause. -/
def cleanup_deleted_users (policies : List (DataType × RetentionPolicy)) (db : DB) (now : Int)
    (fault : Option CleanStep) : CleanupOutcome :=
  match get_policy policies .deleted_user with
  | none => ⟨0, 0, db, false⟩
  | some p => cleanup_database db .deletedAtCol p now true false fault

/-- Models `cleanup_temp_files` over a directory modelled by its presence and the
modification times of its files. -/
def cleanup_temp_files (policies : List (DataType × RetentionPolicy)) (tempPresent : Bool)
    (mtimes : List Int) (now : Int) : Nat :=
  if !tempPresent then 0
  else
    match get_policy policies .temp_files with
    | none => 0
    | some p => mtimes.countP (fun m => decide (m < retention_until p now))

/-! ### The audit trail (record_deletion) -/

structure DeletionAuditRow where
  id : String
  timestamp : Int
  data_type : DataType
  records_deleted : Nat
  records_archived : Nat
  user_id : Option String
  reason : String
deriving DecidableEq

/-- The INSERT into `deletion_audits`, which may raise. -/
def persistAudit (fail : Bool) (tbl : List DeletionAuditRow) (row : DeletionAuditRow) :
    Except Unit (List DeletionAuditRow) :=
  if fail then .error () else .ok (tbl ++ [row])

/-- Models `DataRetentionManager.record_deletion`: generate the id, build the audit
record, try to persist it (a failure is logged and swallowed), and return the
id in every case.  The generated uuid and clock reading are passed in. -/
def record_deletion (persistFails : Bool) (tbl : List DeletionAuditRow)
    (freshId : String) (nowTs : Int) (data_type : DataType) (records_deleted : Nat)
    (records_archived : Nat := 0) (user_id : Option String := none)
    (reason : String := "retention_policy") : String × List DeletionAuditRow :=
  let audit : DeletionAuditRow :=
    { id := freshId, timestamp := nowTs, data_type := data_type,
      records_deleted := records_deleted, records_archived := records_archived,
      user_id := user_id, reason := reason }
  match persistAudit persistFails tbl audit with
  | .ok t => (freshId, t)
  | .error _ => (freshId, tbl)

/-! ### The cleanup script (scripts/cleanup_old_data.py, run_cleanup with
`data_type=None`) -/

/-- The stores handed to the script via settings. -/
structure Stores where
  sessionsDb : DB
  analyticsDb : DB
  activityDb : DB
  usersDb : DB
  tempPresent : Bool
  tempMtimes : List Int
deriving DecidableEq

/-- Per-category fault injection for one run. -/
structure Faults where
  sessions : Option CleanStep := none
  analytics : Option CleanStep := none
  activityLogs : Option CleanStep := none
  deletedUsers : Option CleanStep := none
deriving DecidableEq

/-- One run's observable results: the per-category counts the run reports,
the `(data_type, records_deleted)` arguments of each `record_deletion` call
in order, the aggregate, and the stores afterwards. -/
structure RunResults where
  sessions : Nat × Nat
  analytics : Nat × Nat
  activity_logs : Nat × Nat
  deleted_users : Nat × Nat
  temp_files : Nat
  auditCalls : List (DataType × Nat)
  total_deleted : Nat
  stores : Stores
deriving DecidableEq

/-- Models `run_cleanup(manager, settings, dry_run, data_type=None)`: each category
block runs its cleanup, records `soft+hard` deletions in the audit trail —
except `deleted_users`, which records only `hard_del`, and `temp_files`,
which records its file count — and accumulates the aggregate the same way. -/
def run_cleanup (policies : List (DataType × RetentionPolicy)) (stores : Stores)
    (now : Int) (dry_run : Bool) (faults : Faults) : RunResults :=
  let s := cleanup_sessions policies stores.sessionsDb now faults.sessions
  let a := cleanup_analytics policies stores.analyticsDb now faults.analytics
  let al := cleanup_activity_logs policies stores.activityDb now faults.activityLogs
  let du := cleanup_deleted_users policies stores.usersDb now faults.deletedUsers
  let tf := cleanup_temp_files policies stores.tempPresent stores.tempMtimes now
  let calls : List (DataType × Nat) :=
    if dry_run then []
    else
      [(.session, s.soft_deleted + s.hard_deleted),
       (.analytics, a.soft_deleted + a.hard_deleted),
       (.activity_log, al.soft_deleted + al.hard_deleted),
       (.deleted_user, du.hard_deleted),
       (.temp_files, tf)]
  { sessions := (s.soft_deleted, s.hard_deleted),
    analytics := (a.soft_deleted, a.hard_deleted),
    activity_logs := (al.soft_deleted, al.hard_deleted),
    deleted_users := (du.soft_deleted, du.hard_deleted),
    temp_files := tf,
    auditCalls := calls,
    total_deleted :=
      (s.soft_deleted + s.hard_deleted) + (a.soft_deleted + a.hard_deleted)
        + (al.soft_deleted + al.hard_deleted) + du.hard_deleted + tf,
    stores :=
      { stores with sessionsDb := s.db, analyticsDb := a.db, activityDb := al.db,
                    usersDb := du.db } }

/-! ## Helper lemmas -/

/-- Early return of `mask`: the input comes back unchanged with no detections
when `detect` is empty. -/
theorem mask_of_detect_nil (m : PiiMasker) (text strategy : String) (rc : Char)
    (h : m.detect text = []) : m.mask text strategy rc = (text, []) := by
  simp [PiiMasker.mask, h]

/-- The second component of `mask` is either the `detect` output or `[]`. -/
theorem mask_snd_cases (m : PiiMasker) (text strategy : String) (rc : Char) :
    (m.mask text strategy rc).2 = m.detect text ∨ (m.mask text strategy rc).2 = [] := by
  by_cases h : (m.detect text).isEmpty
  · right; simp [PiiMasker.mask, h]
  · left; simp [PiiMasker.mask, h]

/-- Under the default threshold 0.7 the heuristic name detections (confidence
0.6) are all filtered before being appended. -/
theorem detect_names_default_nil (text : String) :
    defaultMasker.detect_names text = [] := by
  unfold PiiMasker.detect_names
  apply concatMap_nil_of_forall
  intro g
  simp [defaultMasker, show ¬((60 : Nat) ≥ 70) by omega]

theorem mem_insAsc {x y : PiiDetection} {l : List PiiDetection} :
    x ∈ insAsc y l ↔ x = y ∨ x ∈ l := by
  induction l with
  | nil => simp [insAsc]
  | cons z zs ih =>
    by_cases h : z.start ≤ y.start <;> simp [insAsc, h, ih, or_left_comm]

theorem mem_sortByStart_aux {x : PiiDetection} :
    ∀ (l acc : List PiiDetection),
      (x ∈ l.foldl (fun a d => insAsc d a) acc ↔ x ∈ acc ∨ x ∈ l) := by
  intro l
  induction l with
  | nil => intro acc; simp
  | cons y ys ih =>
    intro acc
    simp only [List.foldl_cons, ih, mem_insAsc, List.mem_cons]
    tauto

/-- The stable sort keeps exactly the input's elements. -/
theorem mem_sortByStart {x : PiiDetection} {l : List PiiDetection} :
    x ∈ sortByStart l ↔ x ∈ l := by
  simp [sortByStart, mem_sortByStart_aux]

/-- Every detection of the default masker comes from one of the eight regex
families, whose type tag is never `name`. -/
theorem detect_pii_no_name (text : String) :
    ∀ d ∈ detect_pii text, d.pii_type ≠ PiiType.name := by
  intro d hd
  simp only [detect_pii, PiiMasker.detect] at hd
  rw [mem_sortByStart, List.mem_append] at hd
  rcases hd with hf | hn
  · rw [mem_concatMap] at hf
    obtain ⟨pp, hpp, hin⟩ := hf
    rw [mem_concatMap] at hin
    obtain ⟨sp, _, hd2⟩ := hin
    have hty : d.pii_type = pp.1 := by
      by_cases hc : 95 ≥ defaultMasker.confidence_threshold
      · simp only [if_pos hc, List.mem_singleton] at hd2
        rw [hd2]
      · simp [if_neg hc] at hd2
    rw [hty]
    simp only [PATTERNS, List.mem_cons, List.not_mem_nil, or_false] at hpp
    rcases hpp with rfl | rfl | rfl | rfl | rfl | rfl | rfl | rfl <;> decide
  · rw [detect_names_default_nil] at hn
    simp at hn

/-! ### Helper lemmas for the logging filter -/

theorem maskDictArgs_total (g : String → String) :
    ∀ l, ∃ l2, maskDictArgs (fun s => Except.ok (g s)) l = .ok l2 := by
  intro l
  induction l with
  | nil => exact ⟨[], rfl⟩
  | cons kv rest ih =>
    obtain ⟨l2, h2⟩ := ih
    rcases kv with ⟨k, v⟩
    cases v with
    | str s => exact ⟨(k, .str (g s)) :: l2, by simp [maskDictArgs, h2, Except.map]⟩
    | other => exact ⟨(k, .other) :: l2, by simp [maskDictArgs, h2, Except.map]⟩

theorem maskTupleArgs_total (g : String → String) :
    ∀ l, ∃ l2, maskTupleArgs (fun s => Except.ok (g s)) l = .ok l2 := by
  intro l
  induction l with
  | nil => exact ⟨[], rfl⟩
  | cons v rest ih =>
    obtain ⟨l2, h2⟩ := ih
    cases v with
    | str s => exact ⟨.str (g s) :: l2, by simp [maskTupleArgs, h2, Except.map]⟩
    | other => exact ⟨.other :: l2, by simp [maskTupleArgs, h2, Except.map]⟩

theorem maskAttrs_total (g : String → String) :
    ∀ l, ∃ l2, maskAttrs (fun s => Except.ok (g s)) l = .ok l2 := by
  intro l
  induction l with
  | nil => exact ⟨[], rfl⟩
  | cons kv rest ih =>
    obtain ⟨l2, h2⟩ := ih
    rcases kv with ⟨k, v⟩
    cases v with
    | str s =>
      by_cases hk : skipKeys.contains k
      · refine ⟨(k, .str s) :: l2, ?_⟩
        simp only [maskAttrs, if_pos hk, h2, Except.map]
      · refine ⟨(k, .str (g s)) :: l2, ?_⟩
        simp only [maskAttrs, if_neg hk, h2, Except.map]
    | other => exact ⟨(k, .other) :: l2, by simp [maskAttrs, h2, Except.map]⟩

theorem maskMsg_total (g : String → String) (attrs : List (String × PyVal)) :
    ∃ a2, maskMsg (fun s => Except.ok (g s)) attrs = .ok a2 := by
  unfold maskMsg
  cases hm : getAttr "msg" attrs with
  | none => exact ⟨attrs, rfl⟩
  | some v =>
    cases v with
    | str s => exact ⟨setAttr "msg" (.str (g s)) attrs, rfl⟩
    | other => exact ⟨attrs, rfl⟩

theorem maskArgs_total (g : String → String) (args : LogArgs) :
    ∃ a2, maskArgs (fun s => Except.ok (g s)) args = .ok a2 := by
  unfold maskArgs
  cases args with
  | noArgs => exact ⟨.noArgs, rfl⟩
  | dictArgs l =>
    by_cases he : l.isEmpty
    · exact ⟨.dictArgs l, by simp [he]⟩
    · obtain ⟨l2, h2⟩ := maskDictArgs_total g l
      exact ⟨.dictArgs l2, by simp [he, h2, Except.map]⟩
  | tupleArgs l =>
    by_cases he : l.isEmpty
    · exact ⟨.tupleArgs l, by simp [he]⟩
    · obtain ⟨l2, h2⟩ := maskTupleArgs_total g l
      exact ⟨.tupleArgs l2, by simp [he, h2, Except.map]⟩

/-- With a masker that succeeds on every string, the filter completes and
returns `True` with some rewritten record. -/
theorem piiFilter_total (g : String → String) (r : LogRecord) :
    ∃ r2, piiFilter (fun s => Except.ok (g s)) r = .ok (true, r2) := by
  obtain ⟨a1, h1⟩ := maskMsg_total g r.attrs
  obtain ⟨args1, h2⟩ := maskArgs_total g r.args
  obtain ⟨a2, h3⟩ := maskAttrs_total g a1
  exact ⟨⟨a2, args1⟩, by simp [piiFilter, h1, h2, h3, Except.map, Bind.bind, Except.bind]⟩

/-- A masking failure on the message aborts the whole filter call. -/
theorem piiFilter_error_on_msg (maskF : String → Except Unit String) (r : LogRecord)
    (s : String) (h : getAttr "msg" r.attrs = some (.str s)) (hf : maskF s = .error ()) :
    piiFilter maskF r = .error () := by
  simp [piiFilter, maskMsg, h, hf, Except.map, Bind.bind, Except.bind]

/-! ### Helper lemmas for the cleanup engine -/

/-- Unfolded form of a fault-free, both-phases cleanup of a present store. -/
theorem cleanup_database_no_fault (db : DB) (c : DateCol) (p : RetentionPolicy) (now : Int)
    (wd : Bool) (hp : db.present = true) (hsb : p.soft_delete_before_hard = true) :
    cleanup_database db c p now wd false none =
      (let softPred := sqlPred c (retention_until p now) wd
       let soft := db.rows.countP softPred
       let rows1 :=
         if decide (0 < soft) && db.hasDeletedAtCol then db.rows.map (markRow softPred now)
         else db.rows
       let hardPred := sqlPred c (soft_delete_until p now) wd
       let hard := rows1.countP hardPred
       let rows2 := if 0 < hard then rows1.filter (fun r => !hardPred r) else rows1
       ⟨soft, hard, { db with rows := rows2 }, false⟩) := by
  simp only [cleanup_database, cleanupBodyE, hp, hsb]
  simp

/-- Marking does not change the date column when it is `created_at`-like. -/
theorem sqlPred_markRow (cutoff : Int) (pred : Row → Bool) (now : Int) (r : Row) :
    sqlPred .tsCol cutoff false (markRow pred now r) = sqlPred .tsCol cutoff false r := by
  unfold markRow
  by_cases h : pred r <;> simp [h, sqlPred, rowDate]

theorem countP_tsCol_map_markRow (l : List Row) (cutoff now : Int) (pred : Row → Bool) :
    (l.map (markRow pred now)).countP (sqlPred .tsCol cutoff false)
      = l.countP (sqlPred .tsCol cutoff false) := by
  rw [List.countP_map]
  have hf : (sqlPred .tsCol cutoff false) ∘ (markRow pred now)
      = sqlPred .tsCol cutoff false := by
    funext r
    exact sqlPred_markRow cutoff pred now r

  rw [hf]

/-- After a hard-delete pass nothing matching the hard predicate remains. -/
theorem countP_after_hard_pass (rows1 : List Row) (hardPred : Row → Bool) :
    ((if 0 < rows1.countP hardPred then rows1.filter (fun r => !hardPred r)
      else rows1).countP hardPred) = 0 := by
  by_cases h : 0 < rows1.countP hardPred
  · rw [if_pos h, List.countP_eq_zero]
    intro a ha
    rw [List.mem_filter] at ha
    simp only [Bool.not_eq_true'] at ha
    simp [ha.2]
  · rw [if_neg h]
    omega

/-- An optional marking pass never changes a count taken on the date column. -/
theorem countP_hard_stable (rows2 : List Row) (cond : Bool) (softPred : Row → Bool)
    (cutoff now : Int) :
    ((if cond then rows2.map (markRow softPred now) else rows2).countP
        (sqlPred .tsCol cutoff false)) = rows2.countP (sqlPred .tsCol cutoff false) := by
  cases cond
  · simp
  · show (rows2.map (markRow softPred now)).countP (sqlPred .tsCol cutoff false)
      = rows2.countP (sqlPred .tsCol cutoff false)
    exact countP_tsCol_map_markRow rows2 cutoff now softPred

/-- Variant of `cleanup_database_no_fault` with the store given by components. -/
theorem cleanup_database_no_fault2 (hasCol : Bool) (rows : List Row) (c : DateCol)
    (p : RetentionPolicy) (now : Int) (wd : Bool) (hsb : p.soft_delete_before_hard = true) :
    cleanup_database ⟨true, hasCol, rows⟩ c p now wd false none =
      ⟨rows.countP (sqlPred c (retention_until p now) wd),
       (if decide (0 < rows.countP (sqlPred c (retention_until p now) wd)) && hasCol
        then rows.map (markRow (sqlPred c (retention_until p now) wd) now)
        else rows).countP (sqlPred c (soft_delete_until p now) wd),
       ⟨true, hasCol,
        (let rows1 :=
           if decide (0 < rows.countP (sqlPred c (retention_until p now) wd)) && hasCol
           then rows.map (markRow (sqlPred c (retention_until p now) wd) now)
           else rows
         if 0 < rows1.countP (sqlPred c (soft_delete_until p now) wd)
         then rows1.filter (fun r => !(sqlPred c (soft_delete_until p now) wd r))
         else rows1)⟩,
       false⟩ := by
  rw [cleanup_database_no_fault _ _ _ _ _ rfl hsb]

/-! ## The claims -/

/-- C6: for every category with a set policy (and indeed for any policy and
mode), invoking cleanup against a backing store whose path does not exist
returns `(0, 0)`, leaves the store untouched, and raises nothing: neither the
generic `_cleanup_database` nor the `cleanup_sessions` wrapper can fail on a
missing store. -/
theorem cleanup_missing_store_returns_zero :
    ∀ (policies : List (DataType × RetentionPolicy)) (hasCol : Bool) (rows : List Row)
      (c : DateCol) (p : RetentionPolicy) (now : Int) (whereDel sdo : Bool)
      (fault : Option CleanStep),
      cleanup_database ⟨false, hasCol, rows⟩ c p now whereDel sdo fault
        = ⟨0, 0, ⟨false, hasCol, rows⟩, false⟩ ∧
      cleanup_sessions policies ⟨false, hasCol, rows⟩ now fault
        = ⟨0, 0, ⟨false, hasCol, rows⟩, false⟩ := by
  intro policies hasCol rows c p now whereDel sdo fault
  constructor
  · rfl
  · unfold cleanup_sessions
    cases hq : get_policy policies .session with
    | none => rfl
    | some p2 => rfl

/-- C7: `record_deletion` returns the freshly generated deletion id for every
input; when persisting the audit record fails the failure is swallowed (the
audit table is left as it was) and the very same id is still returned, and on
success the record carrying that id is appended. -/
theorem record_deletion_always_returns_id :
    ∀ (persistFails : Bool) (tbl : List DeletionAuditRow) (freshId : String) (nowTs : Int)
      (dt : DataType) (deleted archived : Nat) (uid : Option String) (reason : String),
      (record_deletion persistFails tbl freshId nowTs dt deleted archived uid reason).1
        = freshId ∧
      (record_deletion true tbl freshId nowTs dt deleted archived uid reason).2 = tbl ∧
      (record_deletion false tbl freshId nowTs dt deleted archived uid reason).2
        = tbl ++ [⟨freshId, nowTs, dt, deleted, archived, uid, reason⟩] := by
  intro pf tbl freshId nowTs dt del arch uid reason
  refine ⟨?_, rfl, rfl⟩
  cases pf <;> rfl

/-- C9: whenever `detect` finds nothing in a text, `mask` returns the text
unchanged together with the empty detection list, for every masker, every
strategy string and every replacement character. -/
theorem mask_no_detections_returns_unchanged :
    ∀ (m : PiiMasker) (text strategy : String) (rc : Char),
      m.detect text = [] → m.mask text strategy rc = (text, []) :=
  fun m text strategy rc h => mask_of_detect_nil m text strategy rc h

/-- Witness for C9 at the PII-free text `"hola"` and the `"hash"` strategy. -/
theorem mask_no_detections_returns_unchanged_witness :
    defaultMasker.detect "hola" = [] ∧
    defaultMasker.mask "hola" "hash" '*' = ("hola", []) :=
  ⟨rfl, mask_no_detections_returns_unchanged defaultMasker "hola" "hash" '*' rfl⟩

/-- C10: under the default configuration (threshold 0.7, as used by the
module-level `detect_pii`/`mask_pii`), the heuristic name detections (fixed
confidence 0.6) are always filtered out: no returned detection — from
`detect_pii` or from `mask_pii` under any strategy — ever has type `name`, so
names are never masked. -/
theorem default_masker_never_masks_names :
    ∀ (text strategy : String),
      (detect_pii text).countP (fun d => decide (d.pii_type = PiiType.name)) = 0 ∧
      (mask_pii text strategy).2.countP (fun d => decide (d.pii_type = PiiType.name)) = 0 := by
  intro text strategy
  have key : (defaultMasker.detect text).countP
      (fun d => decide (d.pii_type = PiiType.name)) = 0 := by
    rw [List.countP_eq_zero]
    intro d hd
    have hne := detect_pii_no_name text d hd
    simp [hne]
  constructor
  · exact key
  · have h2 : (mask_pii text strategy).2 = (defaultMasker.mask text strategy '*').2 := rfl
    rcases mask_snd_cases defaultMasker text strategy '*' with h | h
    · rw [h2, h]; exact key
    · rw [h2, h]; rfl

/-- C2 counterexample: a masking failure on the message is not caught: the
filter call itself evaluates to the propagated exception instead of
completing with `True` and a record, so the claimed per-field containment
does not exist in the code. -/
theorem pii_filter_failure_propagates_cx :
    piiFilter (fun _ => Except.error ()) ⟨[("msg", PyVal.str "user 10.0.0.1")], .noArgs⟩
      = Except.error () := rfl

/-- C2 (amended): the filter body contains no exception handling at all.
When every masking call succeeds the filter completes and returns `True` with
a rewritten record; but if masking the message fails, the failure propagates
out of `filter` and the remaining fields are never processed. -/
theorem pii_filter_no_per_field_handler :
    (∀ (g : String → String) (r : LogRecord),
        ∃ r2, piiFilter (fun s => Except.ok (g s)) r = .ok (true, r2)) ∧
    (∀ (maskF : String → Except Unit String) (r : LogRecord) (s : String),
        getAttr "msg" r.attrs = some (.str s) → maskF s = .error () →
        piiFilter maskF r = .error ()) :=
  ⟨piiFilter_total, piiFilter_error_on_msg⟩

/-- Witness for C2 (amended): both branches at concrete records. -/
theorem pii_filter_no_per_field_handler_witness :
    piiFilter (fun _ => Except.error ()) ⟨[("msg", PyVal.str "x")], .noArgs⟩
      = Except.error () :=
  pii_filter_no_per_field_handler.2 (fun _ => Except.error ())
    ⟨[("msg", PyVal.str "x")], .noArgs⟩ "x" rfl rfl

/-- The C3 scenario: default policies, only the users store present, holding
one account soft-deleted 35 days ago. -/
def c3Stores : Stores :=
  ⟨⟨false, false, []⟩, ⟨false, false, []⟩, ⟨false, false, []⟩,
   ⟨true, true, [⟨0, some (-35)⟩]⟩, false, []⟩

def c3Run : RunResults := run_cleanup default_policies c3Stores 0 false {}

/-- C3 counterexample: the `deleted_users` category reports `(1, 0)` (one row
newly soft-deleted), yet the audit entry records `records_deleted = 0`
(`run_cleanup` passes only `hard_del` for this category), so the recorded
count differs from the reported soft+hard sum. -/
theorem run_cleanup_audit_mismatch_cx :
    c3Run.deleted_users = (1, 0) ∧
    c3Run.auditCalls
      = [(.session, 0), (.analytics, 0), (.activity_log, 0), (.deleted_user, 0),
         (.temp_files, 0)] ∧
    ¬(0 = c3Run.deleted_users.1 + c3Run.deleted_users.2) := by
  decide

/-- C3 (amended): for the sessions, analytics and activity-log categories the
audit entry of a run records exactly the soft+hard sum the run reports, and
for temp files the reported file count; for `deleted_users`, however, the
audit entry records only the hard-deleted count. -/
theorem run_cleanup_audit_relation :
    ∀ (policies : List (DataType × RetentionPolicy)) (stores : Stores) (now : Int)
      (f : Faults),
      (run_cleanup policies stores now false f).auditCalls =
        [(.session, (run_cleanup policies stores now false f).sessions.1
            + (run_cleanup policies stores now false f).sessions.2),
         (.analytics, (run_cleanup policies stores now false f).analytics.1
            + (run_cleanup policies stores now false f).analytics.2),
         (.activity_log, (run_cleanup policies stores now false f).activity_logs.1
            + (run_cleanup policies stores now false f).activity_logs.2),
         (.deleted_user, (run_cleanup policies stores now false f).deleted_users.2),
         (.temp_files, (run_cleanup policies stores now false f).temp_files)] := by
  intro policies stores now f
  rfl

/-- The C1 scenario: a session-style policy (R=30, S=7 days) and a store with
one row 35 days old — inside the soft-delete grace band. -/
def c1FirstRun : CleanupOutcome :=
  cleanup_database ⟨true, true, [⟨-35, none⟩]⟩ .tsCol
    { data_type := .session, retention_days := 30 } 0 false false none

def c1SecondRun : CleanupOutcome :=
  cleanup_database c1FirstRun.db .tsCol
    { data_type := .session, retention_days := 30 } 0 false false none

/-- C1 counterexample: with an unchanged clock and no new or modified rows,
the second cleanup run again reports the grace-band row (the soft-phase count
has no `deleted_at IS NULL` guard), returning `(1, 0)` instead of `(0, 0)`. -/
theorem cleanup_second_run_not_zero_cx :
    (c1SecondRun.soft_deleted, c1SecondRun.hard_deleted) = (1, 0) ∧
    (c1SecondRun.soft_deleted, c1SecondRun.hard_deleted) ≠ (0, 0) := by
  decide

/-- C1 (amended): for a date column distinct from the marker column, a second
run with an unchanged clock and untouched store reports hard-deleted 0, but
soft-deleted equal to the number of remaining rows older than the retention
cutoff (the rows the first run left in the grace band); it is `(0, 0)` only
when no such rows remain. -/
theorem cleanup_second_run_characterization :
    ∀ (hasCol : Bool) (rows : List Row) (p : RetentionPolicy) (now : Int),
      p.soft_delete_before_hard = true →
      (cleanup_database
          (cleanup_database ⟨true, hasCol, rows⟩ .tsCol p now false false none).db
          .tsCol p now false false none).hard_deleted = 0 ∧
      (cleanup_database
          (cleanup_database ⟨true, hasCol, rows⟩ .tsCol p now false false none).db
          .tsCol p now false false none).soft_deleted
        = (cleanup_database ⟨true, hasCol, rows⟩ .tsCol p now false false none).db.rows.countP
            (sqlPred .tsCol (retention_until p now) false) := by
  intro hasCol rows p now hsb
  rw [cleanup_database_no_fault2 hasCol rows .tsCol p now false hsb]
  simp only []
  rw [cleanup_database_no_fault2 _ _ .tsCol p now false hsb]
  simp only []
  constructor
  · rw [countP_hard_stable]
    exact countP_after_hard_pass _ _
  · try rfl
    try trivial

/-- Witness for C1 (amended): a store with one hard-band and one grace-band
row; the second run reports `(1, 0)` — one remaining old row, nothing more to
hard-delete. -/
theorem cleanup_second_run_characterization_witness :
    (cleanup_database
        (cleanup_database ⟨true, true, [⟨-100, none⟩, ⟨-35, none⟩]⟩ .tsCol
          { data_type := .session, retention_days := 30 } 0 false false none).db
        .tsCol { data_type := .session, retention_days := 30 } 0 false false
        none).hard_deleted = 0 ∧
    (cleanup_database
        (cleanup_database ⟨true, true, [⟨-100, none⟩, ⟨-35, none⟩]⟩ .tsCol
          { data_type := .session, retention_days := 30 } 0 false false none).db
        .tsCol { data_type := .session, retention_days := 30 } 0 false false
        none).soft_deleted
      = (cleanup_database ⟨true, true, [⟨-100, none⟩, ⟨-35, none⟩]⟩ .tsCol
          { data_type := .session, retention_days := 30 } 0 false false
          none).db.rows.countP
          (sqlPred .tsCol
            (retention_until { data_type := .session, retention_days := 30 } 0) false) :=
  cleanup_second_run_characterization true [⟨-100, none⟩, ⟨-35, none⟩]
    { data_type := .session, retention_days := 30 } 0 rfl

/-- The C4 scenario: one row old enough for both phases. -/
def c4Db : DB := ⟨true, true, [⟨-40, none⟩]⟩

def c4Policy : RetentionPolicy := { data_type := .session, retention_days := 30 }

/-- C4 counterexample: when the soft phase raises (fault at its COUNT
statement), the exception is caught but the hard phase of the same category
is skipped: the run returns `(0, 0)` and leaves the row in place, although a
fault-free run of the very same store reports a hard-deleted count of 1.  So
"the other phase still runs and reports its actual count" fails. -/
theorem cleanup_fault_skips_other_phase_cx :
    cleanup_database c4Db .tsCol c4Policy 0 false false (some .softCountStep)
      = ⟨0, 0, c4Db, true⟩ ∧
    (cleanup_database c4Db .tsCol c4Policy 0 false false none).hard_deleted = 1 := by
  decide

/-- C4 (amended): an exception during a phase is caught and never propagated,
and every other category of the same run is untouched by it; but both phases
share one protected block, so an exception in the soft phase also aborts the
hard phase of that category: the run returns the counts computed before the
failure (zero for the failing count and everything after it) and the store is
left as it was at the raise. -/
theorem cleanup_fault_containment :
    (∀ (hcol : Bool) (rows : List Row) (c : DateCol) (p : RetentionPolicy) (now : Int)
        (wd : Bool),
        p.soft_delete_before_hard = true →
        cleanup_database ⟨true, hcol, rows⟩ c p now wd false (some .softCountStep)
          = ⟨0, 0, ⟨true, hcol, rows⟩, true⟩) ∧
    (∀ (policies : List (DataType × RetentionPolicy)) (stores : Stores) (now : Int)
        (dry : Bool) (f : Faults) (st : Option CleanStep),
        (run_cleanup policies stores now dry { f with sessions := st }).analytics
          = (run_cleanup policies stores now dry f).analytics ∧
        (run_cleanup policies stores now dry { f with sessions := st }).activity_logs
          = (run_cleanup policies stores now dry f).activity_logs ∧
        (run_cleanup policies stores now dry { f with sessions := st }).deleted_users
          = (run_cleanup policies stores now dry f).deleted_users ∧
        (run_cleanup policies stores now dry { f with sessions := st }).temp_files
          = (run_cleanup policies stores now dry f).temp_files) := by
  constructor
  · intro hcol rows c p now wd hsb
    simp only [cleanup_database, cleanupBodyE, hsb]
    simp
  · intro policies stores now dry f st
    exact ⟨rfl, rfl, rfl, rfl⟩

/-- Witness for C4 (amended), at a concrete store and policy. -/
theorem cleanup_fault_containment_witness :
    cleanup_database ⟨true, true, [⟨-40, none⟩, ⟨-5, none⟩]⟩ .tsCol
        { data_type := .analytics, retention_days := 90 } 0 false false
        (some .softCountStep)
      = ⟨0, 0, ⟨true, true, [⟨-40, none⟩, ⟨-5, none⟩]⟩, true⟩ :=
  cleanup_fault_containment.1 true [⟨-40, none⟩, ⟨-5, none⟩] .tsCol
    { data_type := .analytics, retention_days := 90 } 0 false rfl

/-- The C5 boundary scenario at `soft_delete_days = 1`: rows 32, 30 and 29
days old under a 30-day/1-day policy, cleaned at `now = 0`. -/
def c5Run : CleanupOutcome :=
  cleanup_database ⟨true, true, [⟨-32, none⟩, ⟨-30, none⟩, ⟨-29, none⟩]⟩ .tsCol
    { data_type := .session, retention_days := 30, soft_delete_days := 1 } 0 false false none

/-- C5 counterexample: with `R = 30, S = 1`, the row timestamped
`now − R − S + 1 = now − 30` is NOT soft-deleted: the soft phase counts and
marks only strictly older rows (`< now − R`), so the run reports a single
soft-deletion (the −32 row, which is then hard-deleted) and the −30 row stays
present and unmarked — contradicting the claim, which asserts it is marked. -/
theorem cleanup_grace_boundary_cx :
    c5Run.soft_deleted = 1 ∧
    c5Run.db.rows = [⟨-30, none⟩, ⟨-29, none⟩] := by
  decide

/-- C5 (amended): for `soft_delete_days ≥ 2` (so that `now − R − S + 1` is
strictly older than the retention cutoff) a single run with both phases
enabled on a store with the marker column behaves as claimed: the row at
`now − R − S − 1` is hard-deleted, the row at `now − R − S + 1` is counted
and marked but still present, and the row at `now − R + 1` is untouched. -/
theorem cleanup_three_band_rows :
    ∀ (R S now : Int) (a1 a2 a3 : Option Int) (dt : DataType),
      2 ≤ S →
      cleanup_database
          ⟨true, true, [⟨now - R - S - 1, a1⟩, ⟨now - R - S + 1, a2⟩, ⟨now - R + 1, a3⟩]⟩
          .tsCol { data_type := dt, retention_days := R, soft_delete_days := S } now
          false false none
        = ⟨2, 1, ⟨true, true, [⟨now - R - S + 1, some now⟩, ⟨now - R + 1, a3⟩]⟩, false⟩ := by
  intro R S now a1 a2 a3 dt hS
  have hs1 : sqlPred .tsCol (now - R) false ⟨now - R - S - 1, a1⟩ = true := by
    simp [sqlPred, rowDate]
    try omega
  have hs2 : sqlPred .tsCol (now - R) false ⟨now - R - S + 1, a2⟩ = true := by
    simp [sqlPred, rowDate]
    try omega
  have hs3 : sqlPred .tsCol (now - R) false ⟨now - R + 1, a3⟩ = false := by
    simp [sqlPred, rowDate]
    try omega
  have hh1 : sqlPred .tsCol (now - (R + S)) false ⟨now - R - S - 1, some now⟩ = true := by
    simp [sqlPred, rowDate]
    try omega
  have hh2 : sqlPred .tsCol (now - (R + S)) false ⟨now - R - S + 1, some now⟩ = false := by
    simp [sqlPred, rowDate]
    try omega
  have hh3 : sqlPred .tsCol (now - (R + S)) false ⟨now - R + 1, a3⟩ = false := by
    simp [sqlPred, rowDate]
    try omega
  rw [cleanup_database_no_fault2 _ _ _ _ _ _ rfl]
  simp only [retention_until, soft_delete_until]
  simp only [List.countP_cons, List.countP_nil, hs1, hs2, hs3, hh1, hh2, hh3,
    List.map_cons, List.map_nil, markRow, if_pos, if_neg, List.filter_cons,
    List.filter_nil, cond_true, cond_false, Bool.not_true, Bool.not_false]
  try norm_num [markRow, hs1, hs2, hs3, hh1, hh2, hh3]

/-- Witness for C5 (amended) at `R = 30, S = 7, now = 0`. -/
theorem cleanup_three_band_rows_witness :
    cleanup_database
        ⟨true, true, [⟨0 - 30 - 7 - 1, none⟩, ⟨0 - 30 - 7 + 1, none⟩, ⟨0 - 30 + 1, none⟩]⟩
        .tsCol { data_type := .session, retention_days := 30, soft_delete_days := 7 } 0
        false false none
      = ⟨2, 1, ⟨true, true, [⟨0 - 30 - 7 + 1, some 0⟩, ⟨0 - 30 + 1, none⟩]⟩, false⟩ :=
  cleanup_three_band_rows 30 7 0 none none none .session (by decide)

/-- C8 counterexample: redacting is not a fixed point.  In
`"1 2.3.4.5 678901"` the phone pattern matches the whole line while the IPv4
pattern matches the overlapping `"2.3.4.5"`; the descending-offset splice
cuts into the first placeholder and re-exposes `678901`, which the phone
pattern matches again on the second pass, so the second redaction changes the
text further. -/
theorem mask_redact_not_fixed_point_cx :
    (mask_pii "1 2.3.4.5 678901" "redact").1 = "[REDACTED_PHONE]DDRESS] 678901" ∧
    (mask_pii "[REDACTED_PHONE]DDRESS] 678901" "redact").1
      = "[REDACTED_PHONE]DDRESS] [REDACTED_PHONE]" ∧
    ("[REDACTED_PHONE]DDRESS] [REDACTED_PHONE]" : String)
      ≠ "[REDACTED_PHONE]DDRESS] 678901" :=
  ⟨rfl, rfl, by decide⟩

/-- C8 (amended): redacting already-redacted text changes nothing further
exactly when the once-masked text contains no detections — which holds for
ordinary non-overlapping PII, but not for every text (see the
counterexample). -/
theorem mask_redact_fixed_point_when_clean :
    ∀ (m : PiiMasker) (text : String),
      m.detect (m.mask text "redact").1 = [] →
      m.mask (m.mask text "redact").1 "redact" = ((m.mask text "redact").1, []) :=
  fun m text h => mask_of_detect_nil m (m.mask text "redact").1 "redact" '*' h

/-- Witness for C8 (amended): a text with one email, whose redaction is
detection-free, is a fixed point of the second pass. -/
theorem mask_redact_fixed_point_when_clean_witness :
    defaultMasker.detect (defaultMasker.mask "a@b.cc" "redact").1 = [] ∧
    defaultMasker.mask (defaultMasker.mask "a@b.cc" "redact").1 "redact"
      = ((defaultMasker.mask "a@b.cc" "redact").1, []) :=
  ⟨rfl, mask_redact_fixed_point_when_clean defaultMasker "a@b.cc" rfl⟩

end Mvp
